import Mathlib

/-!
Verification development for the mini-brevo contact import & send pipeline
(`src/app.py`).  The Python source is shallowly embedded: pure helpers become
Lean functions, the SQLite stores become explicit list-based states, the SMTP
transport becomes an abstract function argument, and the module-level
environment configuration becomes an explicit record of optional strings.
-/

namespace MiniBrevo

/-! ## Python string primitives used by the source -/

/-- ASCII whitespace stripped by Python's `str.strip()`. -/
def isPySpace (c : Char) : Bool :=
  c = ' ' || c = '\t' || c = '\n' || c = '\r' || c = '\x0b' || c = '\x0c'

/-- `str.strip()` on the character list. -/
def pyStripList (l : List Char) : List Char :=
  ((l.dropWhile isPySpace).reverse.dropWhile isPySpace).reverse

/-- `str.strip()`. -/
def pyStrip (s : String) : String := ⟨pyStripList s.data⟩

/-- `str.lower()` (ASCII; all data in the claims is ASCII). -/
def pyLower (s : String) : String := ⟨s.data.map Char.toLower⟩

/-! ## The email validator (`is_valid_email`, `src/app.py:133-134`)

The regex `^[A-Za-z0-9._%+-]+@[A-Za-z0-9.-]+\.[A-Za-z]{2,}$` is embedded as a
decidable matcher: a split-search over all decompositions of the input, which
is the defining language semantics of concatenation in the regex.  Python's
`$` anchor matches at the end of the string *or just before one newline at the
very end*, so `is_valid_email` also accepts a matching string followed by a
single `'\n'`. -/

/-- Characters of the class `[A-Za-z0-9._%+-]`. -/
def isLocalChar (c : Char) : Bool :=
  c.isAlphanum || c = '.' || c = '_' || c = '%' || c = '+' || c = '-'

/-- Characters of the class `[A-Za-z0-9.-]`. -/
def isDomainChar (c : Char) : Bool :=
  c.isAlphanum || c = '.' || c = '-'

/-- `[A-Za-z0-9._%+-]+` : nonempty, all local characters. -/
def localOk (l : List Char) : Bool := !l.isEmpty && l.all isLocalChar

/-- `[A-Za-z]{2,}` : at least two characters, all ASCII letters. -/
def tldOk (l : List Char) : Bool := decide (2 ≤ l.length) && l.all Char.isAlpha

/-- Concatenation of two regex pieces: some split of `t` satisfies both. -/
def splitMatch (p q : List Char → Bool) (t : List Char) : Bool :=
  (List.range (t.length + 1)).any fun i => p (t.take i) && q (t.drop i)

/-- `\.[A-Za-z]{2,}` anchored at the end. -/
def dotTld (u : List Char) : Bool :=
  match u with
  | c :: lab => c == '.' && tldOk lab
  | [] => false

/-- `[A-Za-z0-9.-]+\.[A-Za-z]{2,}` anchored at the end. -/
def domainOk (r : List Char) : Bool :=
  splitMatch (fun d => !d.isEmpty && d.all isDomainChar) dotTld r

/-- `@` followed by the domain part. -/
def atDomain (u : List Char) : Bool :=
  match u with
  | c :: r => c == '@' && domainOk r
  | [] => false

/-- The full pattern `[A-Za-z0-9._%+-]+@[A-Za-z0-9.-]+\.[A-Za-z]{2,}` against
the whole character list. -/
def emailCore (t : List Char) : Bool := splitMatch localOk atDomain t

/-- `is_valid_email` from `src/app.py:133-134`: `re.match(pattern + "$", s)`,
where Python's `$` also matches just before a single trailing newline. -/
def is_valid_email (s : String) : Bool :=
  emailCore s.data ||
    (match s.data.getLast? with
     | some c => c = '\n' && emailCore s.data.dropLast
     | none => false)

/-- The `local@domain.tld` shape exactly as the spec words it: one-or-more
local characters, `@`, one-or-more domain characters, a dot, and a final label
of at least two letters — covering the whole string, with no trailing-newline
allowance.  Used to compare the spec's description with the code. -/
def specEmailShape (s : String) : Bool := emailCore s.data

/-! ## Contact store (`contacts` table, `insert_contact`, `bulk_import_contacts`)

The `contacts` table has a `UNIQUE` constraint on `email` and an
autoincrement id; `insert_contact` (`src/app.py:67-74`) is `INSERT OR IGNORE`,
so a row whose (stripped, lower-cased) email is already present is silently
dropped.  Timestamps (`datetime.utcnow().isoformat()`) are opaque strings
passed in explicitly. -/

structure ContactRow where
  id : Nat
  name : String
  email : String
  tags : String
  created_at : String
deriving DecidableEq

structure ContactStore where
  nextId : Nat
  rows : List ContactRow
deriving DecidableEq

/-- Does the store already hold a row with exactly this email? (SQLite
`UNIQUE` comparison on the stored text.) -/
def emailPresent (s : ContactStore) (e : String) : Bool :=
  s.rows.any fun r => r.email == e

/-- `insert_contact` (`src/app.py:67-74`): normalises the fields
(`name.strip()`, `email.strip().lower()`, `tags.strip()`) and performs
`INSERT OR IGNORE` against the unique email column. -/
def insert_contact (s : ContactStore) (name email tags created_at : String) :
    ContactStore :=
  let e := pyLower (pyStrip email)
  if emailPresent s e then s
  else { nextId := s.nextId + 1,
         rows := s.rows ++
           [{ id := s.nextId, name := pyStrip name, email := e,
              tags := pyStrip tags, created_at := created_at }] }

/-- A candidate contact record produced by the Import Normalizer
(one row of the pandas DataFrame handed to `bulk_import_contacts`). -/
structure Candidate where
  email : String
  name : String
  tags : String
deriving DecidableEq

/-- `bulk_import_contacts` (`src/app.py:76-88`): for each row, strip/lower the
email, strip name and tags; rows with an empty email are skipped, every other
row is attempted with `insert_contact` and counted.  `clock` supplies the
per-insert timestamp, one entry consumed per attempted insert. -/
def bulk_import_contacts (cands : List Candidate) (clock : List String)
    (s : ContactStore) : ContactStore × Nat :=
  match cands with
  | [] => (s, 0)
  | c :: rest =>
    let email := pyLower (pyStrip c.email)
    if email == "" then bulk_import_contacts rest clock s
    else
      let s' := insert_contact s (pyStrip c.name) email (pyStrip c.tags)
        (clock.headD "")
      let out := bulk_import_contacts rest clock.tail s'
      (out.1, out.2 + 1)

/-! ## Mail transport (`send_email_smtp`, `src/app.py:109-127`)

The module-level environment configuration becomes a record of optional
strings (`none` = unset variable).  The actual SMTP session is an abstract
collaborator `net`; the Boolean paired with the result records whether any
network I/O was attempted. -/

structure SmtpConfig where
  host : Option String
  user : Option String
  password : Option String
  fromEmail : Option String

/-- Python truthiness of an optional environment string: `None` and `""` are
falsy. -/
def pyTruthy (o : Option String) : Bool :=
  match o with
  | none => false
  | some s => !(s == "")

/-- `send_email_smtp` (`src/app.py:109-127`).  If any credential is falsy it
returns `(True, "SIMULATED")` without touching `net`; otherwise it runs the
network session, returning `(True, "")` on success and `(False, str e)` when
the session raises.  The second component of the result records whether the
network was used. -/
def send_email_smtp (cfg : SmtpConfig)
    (net : String → String → String → Except String Unit)
    (toAddr subject body : String) : (Bool × String) × Bool :=
  if pyTruthy cfg.host && pyTruthy cfg.user && pyTruthy cfg.password &&
      pyTruthy cfg.fromEmail then
    match net toAddr subject body with
    | Except.ok _ => ((true, ""), true)
    | Except.error e => ((false, e), true)
  else ((true, "SIMULATED"), false)

/-- The transport as the dispatcher sees it (just the `(ok, err)` pair). -/
def smtpTransport (cfg : SmtpConfig)
    (net : String → String → String → Except String Unit) :
    String → String → String → Bool × String :=
  fun toAddr subject body => (send_email_smtp cfg net toAddr subject body).1

/-- All four credentials truthy — the guard of `send_email_smtp`. -/
def smtpConfigured (cfg : SmtpConfig) : Bool :=
  pyTruthy cfg.host && pyTruthy cfg.user && pyTruthy cfg.password &&
    pyTruthy cfg.fromEmail

/-! ## Template rendering (`body.replace("\x7b\x7bname\x7d\x7d", ...)`)

Python's `str.replace` scans left to right and substitutes each
non-overlapping occurrence of the pattern. -/

/-- Left-to-right non-overlapping replacement with explicit fuel (each step
consumes at least one character, so `s.length` fuel always suffices; the fuel
keeps the recursion structural so that proofs can evaluate it). -/
def replaceFuel (pat rep : List Char) : Nat → List Char → List Char
  | 0, s => s
  | fuel + 1, s =>
    match s with
    | [] => []
    | c :: rest =>
      if pat.isPrefixOf (c :: rest) && !pat.isEmpty then
        rep ++ replaceFuel pat rep fuel ((c :: rest).drop pat.length)
      else c :: replaceFuel pat rep fuel rest

/-- The semantics of Python's `str.replace(pat, rep)` for a nonempty pattern
(`str.replace` with an empty pattern behaves differently, but the source only
ever uses the fixed eight-character placeholder). -/
def replaceList (pat rep s : List Char) : List Char :=
  replaceFuel pat rep s.length s

/-- The pieces of `s` between successive non-overlapping occurrences of
`pat`, scanning left to right, with the same fuel discipline. -/
def splitPatFuel (pat : List Char) : Nat → List Char → List (List Char)
  | 0, s => [s]
  | fuel + 1, s =>
    match s with
    | [] => [[]]
    | c :: rest =>
      if pat.isPrefixOf (c :: rest) && !pat.isEmpty then
        [] :: splitPatFuel pat fuel ((c :: rest).drop pat.length)
      else
        match splitPatFuel pat fuel rest with
        | [] => [[c]]
        | p :: ps => (c :: p) :: ps

/-- The pieces of `s` between successive non-overlapping occurrences of
`pat` (so `replaceList pat rep s` is these pieces joined by `rep`). -/
def splitPat (pat s : List Char) : List (List Char) :=
  splitPatFuel pat s.length s

/-- Joining pieces with a separator: `joinPieces sep [a, b, c] = a ++ sep ++
b ++ sep ++ c`.  Replacement by `rep` is exactly the pieces between the
occurrences joined by `rep`. -/
def joinPieces (sep : List Char) : List (List Char) → List Char
  | [] => []
  | [x] => x
  | x :: y :: xs => x ++ sep ++ joinPieces sep (y :: xs)

/-- Does `pat` occur as a contiguous subsequence of `s`? -/
def containsSeq (pat s : List Char) : Bool :=
  (List.range (s.length + 1)).any fun i => pat.isPrefixOf (s.drop i)

/-- The literal placeholder token of the campaign body. -/
def placeholder : List Char := "\x7b\x7bname\x7d\x7d".data

/-- `body.replace("\x7b\x7bname\x7d\x7d", name)` (`src/app.py:439`). -/
def renderBody (body name : String) : String :=
  ⟨replaceList placeholder name.data body.data⟩

/-! ## Dispatcher (`page_send`, `src/app.py:436-450`) and test send
(`src/app.py:416-421`)

A recipient row carries the contact's id, optional name and email; the send
loop renders the body with `r.name or ""`, calls the transport, and logs one
`SendRecord` per attempt via `log_send` (`src/app.py:99-106`). -/

structure Recipient where
  id : Nat
  name : Option String
  email : String
deriving DecidableEq

structure SendRecord where
  campaign_id : Option Nat
  contact_id : Option Nat
  email : String
  status : String
  error : String
deriving DecidableEq

/-- One iteration of the send loop (`src/app.py:438-443`): render, call the
transport, build the row that `log_send` appends; also returns the `ok` flag
used for the `sent_ok` counter. -/
def sendOne (tr : String → String → String → Bool × String) (cid : Nat)
    (subject body : String) (r : Recipient) : SendRecord × Bool :=
  let personalized := renderBody body (r.name.getD "")
  let res := tr r.email subject personalized
  ({ campaign_id := some cid, contact_id := some r.id, email := r.email,
     status := if res.1 then "SENT" else "ERROR", error := res.2 }, res.1)

/-- The full send loop (`src/app.py:436-443`): processes the recipients in
order, returning the `sent_ok` counter and the send-log rows in append
order. -/
def dispatch (tr : String → String → String → Bool × String) (cid : Nat)
    (subject body : String) : List Recipient → Nat × List SendRecord
  | [] => (0, [])
  | r :: rest =>
    let first := sendOne tr cid subject body r
    let out := dispatch tr cid subject body rest
    ((if first.2 then 1 else 0) + out.1, first.1 :: out.2)

/-- The test send (`src/app.py:416-421`): renders the body with the fixed
name `"Prueba"`, sends to the ad-hoc test email, and logs one row with
`contact_id = None`.  Returns the rendered body together with the logged
row. -/
def testSend (tr : String → String → String → Bool × String) (cid : Nat)
    (subject body test_email : String) : String × SendRecord :=
  let b := renderBody body "Prueba"
  let res := tr test_email subject b
  (b, { campaign_id := some cid, contact_id := none, email := test_email,
        status := if res.1 then "SENT" else "ERROR", error := res.2 })

/-! ## Free-text import path (`page_contacts`, `src/app.py:211-239`)

The `.txt` branch: each non-empty stripped line is parsed either as a
structured `email;name;tags` record or as a token list; then the emails are
normalised, shape-validated (invalid rows counted as skipped), and
deduplicated by email keeping the first occurrence. -/

/-- Splitting a character list at every separator character (the list-level
semantics of Python's `str.split(sep)` for a one-character separator, and —
after discarding empty pieces — of `re.split` on runs of separators). -/
def splitAtChars (p : Char → Bool) : List Char → List (List Char)
  | [] => [[]]
  | c :: rest =>
    if p c then [] :: splitAtChars p rest
    else
      match splitAtChars p rest with
      | [] => [[c]]
      | piece :: pieces => (c :: piece) :: pieces

/-- Python's `ln.split(";")`. -/
def pySplitSemi (s : String) : List String :=
  (splitAtChars (fun c => c = ';') s.data).map String.mk

/-- Python's `";".join(parts)`. -/
def pyJoinSemi (parts : List String) : String :=
  ⟨(List.intersperse [';'] (parts.map String.data)).flatten⟩

/-- A structured line (`";" in ln`, `src/app.py:218-223`): split on `;`,
strip each part; position 0 lower-cased is the email, position 1 the name,
positions 2.. re-joined with `;` the tags. -/
def parseSemicolonLine (ln : String) : Candidate :=
  let partes := (pySplitSemi ln).map pyStrip
  { email := pyLower (partes.headD ""),
    name := (partes.drop 1).headD "",
    tags := if 3 ≤ partes.length then pyJoinSemi (partes.drop 2) else "" }

/-- Separators of the token-list form: `re.split(r"[,\s;]+", ln)`. -/
def isSepChar (c : Char) : Bool := c = ',' || c = ';' || isPySpace c

/-- A token-list line (`src/app.py:225-228`): split on runs of separators,
each non-empty stripped lower-cased token becomes its own candidate with
empty name and tags. -/
def parseTokenLine (ln : String) : List Candidate :=
  (((splitAtChars isSepChar ln.data).map fun t =>
      pyLower (pyStrip ⟨t⟩)).filterMap
    fun t => if t == "" then none
             else some { email := t, name := "", tags := "" })

/-- One line of the free-text file (`src/app.py:217-228`). -/
def parseLine (ln : String) : List Candidate :=
  if ln.data.contains ';' then [parseSemicolonLine ln] else parseTokenLine ln

/-- All candidates before validation (`src/app.py:216-230`): strip every
line, keep the non-empty ones, parse each. -/
def preCandidates (lines : List String) : List Candidate :=
  (((lines.map pyStrip).filter fun l => !(l == "")).map parseLine).flatten

/-- Email normalisation and shape-validation shared by both import paths
(`src/app.py:206-209` and `231-235`): `email.strip().lower()`, then drop and
count the rows whose email fails `is_valid_email`. -/
def normalizeValidate (cs : List Candidate) : List Candidate × Nat :=
  let normed := cs.map fun c => { c with email := pyLower (pyStrip c.email) }
  (normed.filter (fun c => is_valid_email c.email),
   normed.countP fun c => !(is_valid_email c.email))

/-- `drop_duplicates(subset=["email"], keep="first")` with an accumulator of
already-seen emails. -/
def dedupGo (seen : List String) : List Candidate → List Candidate
  | [] => []
  | c :: rest =>
    if seen.contains c.email then dedupGo seen rest
    else c :: dedupGo (c.email :: seen) rest

/-- `drop_duplicates(subset=["email"], keep="first")` (`src/app.py:237-239`). -/
def dedupKeepFirst (cs : List Candidate) : List Candidate := dedupGo [] cs

/-- The whole free-text normalizer (`src/app.py:211-239`) applied to the
`splitlines()` output: candidates in file order after validation and
first-occurrence deduplication, together with the skipped-row count. -/
def freeTextCandidates (lines : List String) : List Candidate × Nat :=
  let v := normalizeValidate (preCandidates lines)
  (dedupKeepFirst v.1, v.2)

/-! ## CSV import path (`page_contacts`, `src/app.py:184-209`)

A CSV file is a header row plus data rows (each row aligned with the
header).  Column names are matched case-insensitively through the dictionary
`\x7bc.lower(): c\x7d`, whose last binding wins when two columns share a
lower-cased name.  A missing `email` column aborts the import; missing
`name`/`tags` columns are filled with empty strings. -/

/-- Index of the column selected by `cols_lower.get(key)`: the *last* header
entry whose lower-casing equals `key`. -/
def lookupColLast (header : List String) (key : String) : Option Nat :=
  match header.reverse.findIdx? fun c => pyLower c == key with
  | none => none
  | some j => some (header.length - 1 - j)

/-- Value of row `row` in column `i`. -/
def cell (row : List String) (i : Nat) : String := (row.drop i).headD ""

/-- The CSV branch of the Import Normalizer (`src/app.py:184-209`): abort
with the UI error when no `email` column exists; otherwise default missing
`name`/`tags` to empty, normalise the emails, and drop-and-count the
shape-invalid rows.  The CSV path applies no deduplication. -/
def csvCandidates (header : List String) (rows : List (List String)) :
    Except String (List Candidate × Nat) :=
  match lookupColLast header "email" with
  | none => Except.error "El CSV debe incluir una columna 'email'."
  | some ei =>
    let nameAt : List String → String :=
      match lookupColLast header "name" with
      | none => fun _ => ""
      | some ni => fun row => cell row ni
    let tagsAt : List String → String :=
      match lookupColLast header "tags" with
      | none => fun _ => ""
      | some ti => fun row => cell row ti
    let cands := rows.map fun row =>
      { email := pyLower (pyStrip (cell row ei)), name := nameAt row,
        tags := tagsAt row : Candidate }
    Except.ok (cands.filter (fun c => is_valid_email c.email),
               cands.countP fun c => !(is_valid_email c.email))

/-- The CSV import end to end (`src/app.py:184-209` followed by the import
button, `src/app.py:246-248`): on a missing `email` column the function
returns before any insert, so the store is untouched and no count is
reported; otherwise the validated candidates are bulk-imported. -/
def csvImportIntoStore (header : List String) (rows : List (List String))
    (clock : List String) (s : ContactStore) : ContactStore × Option Nat :=
  match csvCandidates header rows with
  | Except.error _ => (s, none)
  | Except.ok (cands, _) =>
    let out := bulk_import_contacts cands clock s
    (out.1, some out.2)

/-! ## Concrete fixtures used to instantiate the universally quantified
theorems below -/

/-- A transport with no configuration: always `(True, "SIMULATED")`. -/
def trSim : String → String → String → Bool × String :=
  fun _ _ _ => (true, "SIMULATED")

/-- A configured transport that fails exactly for `b@x.co`. -/
def trFailB : String → String → String → Bool × String :=
  fun toAddr _ _ => if toAddr == "b@x.co" then (false, "boom") else (true, "")

def rcptA : Recipient := { id := 1, name := some "Ana", email := "a@x.co" }

def rcptB : Recipient := { id := 2, name := none, email := "b@x.co" }

def rcptC : Recipient := { id := 3, name := some "Cleo", email := "c@x.co" }

def sampleStore : ContactStore :=
  { nextId := 2,
    rows := [{ id := 1, name := "Ana", email := "a@x.com", tags := "",
               created_at := "t0" }] }

/-- A network session that always succeeds. -/
def netOk : String → String → String → Except String Unit :=
  fun _ _ _ => Except.ok ()

/-- All four transport environment variables unset. -/
def cfgUnset : SmtpConfig :=
  { host := none, user := none, password := none, fromEmail := none }

/-- All four transport environment variables set and non-empty. -/
def cfgFull : SmtpConfig :=
  { host := some "smtp.x", user := some "u", password := some "p",
    fromEmail := some "f@x.co" }

/-! ## Helper lemmas: Python string normalisation -/

theorem char_toNat_ofNat_valid {n : Nat} (h : n < 55296) :
    (Char.ofNat n).toNat = n := by
  unfold Char.ofNat
  rw [dif_pos (Or.inl h)]
  rfl

theorem isPySpace_eq_false_of_ge (c : Char) (h : 65 ≤ c.toNat) :
    isPySpace c = false := by
  unfold isPySpace
  simp only [Bool.or_eq_false_iff, decide_eq_false_iff_not]
  refine ⟨⟨⟨⟨⟨?_, ?_⟩, ?_⟩, ?_⟩, ?_⟩, ?_⟩ <;> (rintro rfl; revert h; decide)

theorem toLower_eq_ofNat (c : Char) (h : c.toNat ≥ 65 ∧ c.toNat ≤ 90) :
    Char.toLower c = Char.ofNat (c.toNat + 32) := by
  show (if c.toNat ≥ 65 ∧ c.toNat ≤ 90 then Char.ofNat (c.toNat + 32) else c)
      = Char.ofNat (c.toNat + 32)
  rw [if_pos h]

theorem toLower_eq_self (c : Char) (h : ¬(c.toNat ≥ 65 ∧ c.toNat ≤ 90)) :
    Char.toLower c = c := by
  show (if c.toNat ≥ 65 ∧ c.toNat ≤ 90 then Char.ofNat (c.toNat + 32) else c) = c
  rw [if_neg h]

theorem isPySpace_toLower (c : Char) :
    isPySpace (Char.toLower c) = isPySpace c := by
  by_cases h : c.toNat ≥ 65 ∧ c.toNat ≤ 90
  · rw [toLower_eq_ofNat c h,
      isPySpace_eq_false_of_ge _ (by rw [char_toNat_ofNat_valid (by omega)]; omega),
      isPySpace_eq_false_of_ge c h.1]
  · rw [toLower_eq_self c h]

theorem toLower_toLower (c : Char) :
    Char.toLower (Char.toLower c) = Char.toLower c := by
  by_cases h : c.toNat ≥ 65 ∧ c.toNat ≤ 90
  · rw [toLower_eq_ofNat c h, toLower_eq_self]
    rw [char_toNat_ofNat_valid (by omega)]
    omega
  · simp only [toLower_eq_self c h]

theorem dropWhile_eq_self_of_head {p : Char → Bool} {l : List Char}
    (h : ∀ a, l.head? = some a → p a = false) : l.dropWhile p = l := by
  cases l with
  | nil => rfl
  | cons c rest => simp [List.dropWhile_cons, h c rfl]

theorem head?_dropWhile_false {p : Char → Bool} {l : List Char} {a : Char}
    (h : (l.dropWhile p).head? = some a) : p a = false := by
  have hm := List.head?_dropWhile_not p l
  rw [h] at hm
  exact hm

theorem head?_pyStripList {l : List Char} {a : Char}
    (h : (pyStripList l).head? = some a) : isPySpace a = false := by
  unfold pyStripList at h
  rw [List.head?_reverse] at h
  obtain ⟨t, ht⟩ := List.dropWhile_suffix (l := (l.dropWhile isPySpace).reverse)
    isPySpace
  have h2 : ((l.dropWhile isPySpace).reverse).getLast? = some a := by
    rw [← ht, List.getLast?_append, h]
    rfl
  rw [List.getLast?_reverse] at h2
  exact head?_dropWhile_false h2

theorem getLast?_pyStripList {l : List Char} {a : Char}
    (h : (pyStripList l).getLast? = some a) : isPySpace a = false := by
  unfold pyStripList at h
  rw [List.getLast?_reverse] at h
  exact head?_dropWhile_false h

theorem pyStripList_eq_self {l : List Char}
    (h1 : ∀ a, l.head? = some a → isPySpace a = false)
    (h2 : ∀ a, l.getLast? = some a → isPySpace a = false) :
    pyStripList l = l := by
  unfold pyStripList
  rw [dropWhile_eq_self_of_head h1]
  rw [dropWhile_eq_self_of_head (fun a ha => h2 a (by rwa [List.head?_reverse] at ha))]
  exact l.reverse_reverse

theorem pyStripList_idem (l : List Char) :
    pyStripList (pyStripList l) = pyStripList l :=
  pyStripList_eq_self (fun _ h => head?_pyStripList h)
    (fun _ h => getLast?_pyStripList h)

theorem pyStripList_map_toLower (l : List Char) :
    pyStripList (l.map Char.toLower) = (pyStripList l).map Char.toLower := by
  have hfun : (isPySpace ∘ Char.toLower) = isPySpace := by
    funext c
    exact isPySpace_toLower c
  unfold pyStripList
  rw [List.dropWhile_map, hfun, ← List.map_reverse, List.dropWhile_map, hfun,
    ← List.map_reverse]

/-- Normalising twice is the same as normalising once:
`e.strip().lower().strip().lower() = e.strip().lower()`. -/
theorem pyNorm_idem (s : String) :
    pyLower (pyStrip (pyLower (pyStrip s))) = pyLower (pyStrip s) := by
  show (⟨(pyStripList ((pyStripList s.data).map Char.toLower)).map Char.toLower⟩
      : String) = ⟨(pyStripList s.data).map Char.toLower⟩
  rw [pyStripList_map_toLower, pyStripList_idem, List.map_map]
  have : (Char.toLower ∘ Char.toLower) = Char.toLower := by
    funext c
    exact toLower_toLower c
  rw [this]

/-! ## Helper lemmas: contact store -/

theorem insert_contact_of_present {s : ContactStore}
    {name email tags created_at : String}
    (h : emailPresent s (pyLower (pyStrip email)) = true) :
    insert_contact s name email tags created_at = s := by
  unfold insert_contact
  simp only [h, if_true]

theorem emailPresent_insert_self (s : ContactStore)
    (name email tags created_at : String) :
    emailPresent (insert_contact s name email tags created_at)
      (pyLower (pyStrip email)) = true := by
  unfold insert_contact
  by_cases h : emailPresent s (pyLower (pyStrip email)) = true
  · simp only [h, if_true]
  · rw [Bool.not_eq_true] at h
    simp only [h, Bool.false_eq_true, if_false]
    unfold emailPresent
    simp

theorem insert_contact_rows_le (s : ContactStore)
    (name email tags created_at : String) :
    (insert_contact s name email tags created_at).rows.length
      ≤ s.rows.length + 1 := by
  unfold insert_contact
  by_cases h : emailPresent s (pyLower (pyStrip email)) = true
  · simp [h]
  · rw [Bool.not_eq_true] at h
    simp [h]

/-- C4: inserting a Contact whose (trimmed, lower-cased) email is already
present leaves the store completely unchanged — row count and every field of
every row — and inserting the same contact twice (with arbitrary timestamps)
yields the same store as inserting it once. -/
theorem insert_contact_idempotent :
    (∀ (s : ContactStore) (name email tags created_at : String),
        emailPresent s (pyLower (pyStrip email)) = true →
        insert_contact s name email tags created_at = s) ∧
    (∀ (s : ContactStore) (name email tags c1 c2 : String),
        insert_contact (insert_contact s name email tags c1) name email tags c2
          = insert_contact s name email tags c1) := by
  constructor
  · intro s name email tags created_at h
    exact insert_contact_of_present h
  · intro s name email tags c1 c2
    exact insert_contact_of_present (emailPresent_insert_self s name email tags c1)

/-- Witness for C4 at a concrete store: `" A@X.com "` normalises to
`"a@x.com"`, which `sampleStore` already holds. -/
theorem insert_contact_idempotent_witness :
    insert_contact sampleStore "Bob" " A@X.com " "tag" "t1" = sampleStore :=
  insert_contact_idempotent.1 sampleStore "Bob" " A@X.com " "tag" "t1" (by decide)

/-! ## C3: simulated mode of the transport -/

/-- C3: if any of the transport credentials host, username, password or
from-address is unset, `send_email_smtp` returns `(True, "SIMULATED")` and
performs no network I/O (the network-use flag is `false` and the abstract
session `net` is never consulted — the result does not depend on it). -/
theorem send_email_smtp_simulated (cfg : SmtpConfig)
    (net : String → String → String → Except String Unit)
    (toAddr subject body : String)
    (h : cfg.host = none ∨ cfg.user = none ∨ cfg.password = none ∨
      cfg.fromEmail = none) :
    send_email_smtp cfg net toAddr subject body = ((true, "SIMULATED"), false) := by
  unfold send_email_smtp
  rcases h with h | h | h | h <;> rw [h] <;> simp [pyTruthy]

/-- Witness for C3: the all-unset configuration with a concrete call. -/
theorem send_email_smtp_simulated_witness :
    send_email_smtp cfgUnset netOk "a@x.co" "s" "b" = ((true, "SIMULATED"), false) :=
  send_email_smtp_simulated cfgUnset netOk "a@x.co" "s" "b" (Or.inl rfl)

/-! ## C10: the bulk-import count -/

theorem bulk_import_count (cands : List Candidate) (clock : List String)
    (s : ContactStore) :
    (bulk_import_contacts cands clock s).2
      = cands.countP fun c => !(pyLower (pyStrip c.email) == "") := by
  induction cands generalizing clock s with
  | nil => rfl
  | cons c rest ih =>
    unfold bulk_import_contacts
    rw [List.countP_cons]
    cases h : (pyLower (pyStrip c.email) == "") with
    | true => simp [h, ih]
    | false => simp [h, ih]

theorem bulk_import_rows_le (cands : List Candidate) (clock : List String)
    (s : ContactStore) :
    (bulk_import_contacts cands clock s).1.rows.length
      ≤ s.rows.length + (bulk_import_contacts cands clock s).2 := by
  induction cands generalizing clock s with
  | nil => exact Nat.le_refl _
  | cons c rest ih =>
    unfold bulk_import_contacts
    cases h : (pyLower (pyStrip c.email) == "") with
    | true =>
      simp only [h, if_true]
      exact ih clock s
    | false =>
      simp only [h, Bool.false_eq_true, if_false]
      have h1 := ih clock.tail
        (insert_contact s (pyStrip c.name) (pyLower (pyStrip c.email))
          (pyStrip c.tags) (clock.headD ""))
      have h2 := insert_contact_rows_le s (pyStrip c.name)
        (pyLower (pyStrip c.email)) (pyStrip c.tags) (clock.headD "")
      omega

/-- C10: the count returned by `bulk_import_contacts` is the number of rows
with a non-empty normalised email that were *attempted* — a duplicate of an
existing store row is silently ignored by the insert yet still counted, a row
with an empty email is skipped without being counted — so in general the
count only bounds the number of rows actually added. -/
theorem bulk_import_count_semantics :
    (∀ (cands : List Candidate) (clock : List String) (s : ContactStore),
        (bulk_import_contacts cands clock s).2
          = cands.countP fun c => !(pyLower (pyStrip c.email) == "")) ∧
    (∀ (c : Candidate) (clock : List String) (s : ContactStore),
        pyLower (pyStrip c.email) ≠ "" →
        emailPresent s (pyLower (pyStrip c.email)) = true →
        bulk_import_contacts [c] clock s = (s, 1)) ∧
    (∀ (c : Candidate) (clock : List String) (s : ContactStore),
        pyLower (pyStrip c.email) = "" →
        bulk_import_contacts [c] clock s = (s, 0)) ∧
    (∀ (cands : List Candidate) (clock : List String) (s : ContactStore),
        (bulk_import_contacts cands clock s).1.rows.length
          ≤ s.rows.length + (bulk_import_contacts cands clock s).2) := by
  refine ⟨bulk_import_count, ?_, ?_, bulk_import_rows_le⟩
  · intro c clock s hne hp
    unfold bulk_import_contacts
    have hb : (pyLower (pyStrip c.email) == "") = false := by
      simpa using hne
    simp only [hb, Bool.false_eq_true, if_false]
    have hins : insert_contact s (pyStrip c.name) (pyLower (pyStrip c.email))
        (pyStrip c.tags) (clock.headD "") = s := by
      apply insert_contact_of_present
      rwa [pyNorm_idem]
    rw [hins]
    rfl
  · intro c clock s he
    unfold bulk_import_contacts
    have hb : (pyLower (pyStrip c.email) == "") = true := by
      simpa using he
    simp only [hb, if_true]
    rfl

/-- Witness for C10: a duplicate of `sampleStore`'s only row is counted
as imported while the store stays unchanged. -/
theorem bulk_import_count_semantics_witness :
    bulk_import_contacts [{ email := " A@X.com ", name := "B", tags := "" }]
      ["t1"] sampleStore = (sampleStore, 1) :=
  bulk_import_count_semantics.2.1 { email := " A@X.com ", name := "B", tags := "" }
    ["t1"] sampleStore (by decide) (by decide)

/-! ## C2: the dispatcher loop -/

theorem dispatch_eq (tr : String → String → String → Bool × String) (cid : Nat)
    (subject body : String) (rs : List Recipient) :
    dispatch tr cid subject body rs
      = (rs.countP (fun r => (sendOne tr cid subject body r).2),
         rs.map fun r => (sendOne tr cid subject body r).1) := by
  induction rs with
  | nil => rfl
  | cons r rest ih =>
    unfold dispatch
    rw [ih, List.countP_cons, List.map_cons]
    cases h : (sendOne tr cid subject body r).2 <;>
      simp [h, Nat.add_comm]

theorem countP_add_countP_not (p : α → Bool) (l : List α) :
    l.countP p + l.countP (fun a => !(p a)) = l.length := by
  induction l with
  | nil => rfl
  | cons a rest ih =>
    rw [List.countP_cons, List.countP_cons, List.length_cons]
    cases h : p a <;> simp [h] <;> omega

/-- C2: for every campaign and ordered recipient list, the dispatcher
processes all recipients in the order supplied (the send log is exactly the
per-recipient record list, so a failure never blocks later recipients),
appends one record per recipient all carrying the campaign's id, with
`n - k` SENT and `k` ERROR records where `k` counts the recipients for which
the transport fails, each ERROR record carrying the transport's error text,
and reports `n - k` successes out of `n`. -/
theorem dispatch_processes_all (tr : String → String → String → Bool × String)
    (cid : Nat) (subject body : String) (rs : List Recipient) :
    ((dispatch tr cid subject body rs).2
        = rs.map fun r => (sendOne tr cid subject body r).1) ∧
    ((dispatch tr cid subject body rs).2.length = rs.length) ∧
    (∀ sr ∈ (dispatch tr cid subject body rs).2, sr.campaign_id = some cid) ∧
    ((dispatch tr cid subject body rs).2.countP fun sr => sr.status == "SENT")
      = rs.length - rs.countP (fun r => !(sendOne tr cid subject body r).2) ∧
    ((dispatch tr cid subject body rs).2.countP fun sr => sr.status == "ERROR")
      = rs.countP (fun r => !(sendOne tr cid subject body r).2) ∧
    ((dispatch tr cid subject body rs).1
      = rs.length - rs.countP (fun r => !(sendOne tr cid subject body r).2)) ∧
    (∀ r : Recipient, (sendOne tr cid subject body r).1.error
        = (tr r.email subject (renderBody body (r.name.getD ""))).2) := by
  have hnot := countP_add_countP_not
    (fun r => (sendOne tr cid subject body r).2) rs
  have hsent : (rs.countP fun r => ((sendOne tr cid subject body r).1.status == "SENT"))
      = rs.countP fun r => (sendOne tr cid subject body r).2 := by
    apply List.countP_congr
    intro r _
    unfold sendOne
    cases h : (tr r.email subject (renderBody body (r.name.getD ""))).1 <;> simp [h]
  have herr : (rs.countP fun r => ((sendOne tr cid subject body r).1.status == "ERROR"))
      = rs.countP fun r => !(sendOne tr cid subject body r).2 := by
    apply List.countP_congr
    intro r _
    unfold sendOne
    cases h : (tr r.email subject (renderBody body (r.name.getD ""))).1 <;> simp [h]
  refine ⟨by rw [dispatch_eq], ?_, ?_, ?_, ?_, ?_, ?_⟩
  · rw [dispatch_eq]
    exact List.length_map _ _
  · rw [dispatch_eq]
    intro sr hsr
    obtain ⟨r, _, hr⟩ := List.mem_map.mp hsr
    rw [← hr]
    rfl
  · rw [dispatch_eq]
    simp only [List.countP_map]
    rw [show ((fun sr : SendRecord => sr.status == "SENT") ∘
        fun r => (sendOne tr cid subject body r).1)
      = fun r => ((sendOne tr cid subject body r).1.status == "SENT") from rfl]
    rw [hsent]
    omega
  · rw [dispatch_eq]
    simp only [List.countP_map]
    exact herr
  · rw [dispatch_eq]
    simp only
    omega
  · intro r
    rfl

/-- Witness for C2 at the spec's own example shape: three recipients, the
transport failing exactly for the middle one, so 2/3 successes and the first
record carries the campaign id. -/
theorem dispatch_processes_all_witness :
    ((dispatch trFailB 7 "s" "b" [rcptA, rcptB, rcptC]).1
        = [rcptA, rcptB, rcptC].length -
          [rcptA, rcptB, rcptC].countP (fun r => !(sendOne trFailB 7 "s" "b" r).2)) ∧
    ({ campaign_id := some 7, contact_id := some 1, email := "a@x.co",
       status := "SENT", error := "" : SendRecord }).campaign_id = some 7 :=
  ⟨(dispatch_processes_all trFailB 7 "s" "b" [rcptA, rcptB, rcptC]).2.2.2.2.2.1,
   (dispatch_processes_all trFailB 7 "s" "b" [rcptA, rcptB, rcptC]).2.2.1
     { campaign_id := some 7, contact_id := some 1, email := "a@x.co",
       status := "SENT", error := "" } (by decide)⟩

/-! ## C7: template rendering -/

theorem splitPatFuel_ne_nil (pat : List Char) (fuel : Nat) (s : List Char) :
    splitPatFuel pat fuel s ≠ [] := by
  cases fuel with
  | zero => simp [splitPatFuel]
  | succ f =>
    cases s with
    | nil => simp [splitPatFuel]
    | cons c rest =>
      unfold splitPatFuel
      by_cases h : (pat.isPrefixOf (c :: rest) && !pat.isEmpty) = true
      · simp [h]
      · rw [Bool.not_eq_true] at h
        simp only [h, Bool.false_eq_true, if_false]
        cases hs : splitPatFuel pat f rest <;> simp

theorem replaceFuel_eq_joinPieces (pat rep : List Char) (fuel : Nat)
    (s : List Char) :
    replaceFuel pat rep fuel s = joinPieces rep (splitPatFuel pat fuel s) := by
  induction fuel generalizing s with
  | zero => rfl
  | succ f ih =>
    cases s with
    | nil => rfl
    | cons c rest =>
      unfold replaceFuel splitPatFuel
      by_cases h : (pat.isPrefixOf (c :: rest) && !pat.isEmpty) = true
      · simp only [h, if_true]
        rw [ih]
        have hne := splitPatFuel_ne_nil pat f ((c :: rest).drop pat.length)
        cases hX : splitPatFuel pat f ((c :: rest).drop pat.length) with
        | nil => exact absurd hX hne
        | cons p ps => rfl
      · rw [Bool.not_eq_true] at h
        simp only [h, Bool.false_eq_true, if_false]
        rw [ih]
        have hne := splitPatFuel_ne_nil pat f rest
        cases hX : splitPatFuel pat f rest with
        | nil => exact absurd hX hne
        | cons p ps =>
          cases ps with
          | nil => rfl
          | cons q qs => rfl

theorem containsSeq_cons (pat : List Char) (c : Char) (rest : List Char) :
    containsSeq pat (c :: rest)
      = (pat.isPrefixOf (c :: rest) || containsSeq pat rest) := by
  unfold containsSeq
  rw [show (c :: rest).length + 1 = (rest.length + 1) + 1 from rfl,
    List.range_succ_eq_map, List.any_cons, List.any_map]
  rfl

theorem replaceFuel_no_occurrence (pat rep : List Char) (fuel : Nat)
    (s : List Char) (h : containsSeq pat s = false) :
    replaceFuel pat rep fuel s = s := by
  induction fuel generalizing s with
  | zero => rfl
  | succ f ih =>
    cases s with
    | nil => rfl
    | cons c rest =>
      rw [containsSeq_cons, Bool.or_eq_false_iff] at h
      simp only [replaceFuel]
      rw [show (pat.isPrefixOf (c :: rest) && !pat.isEmpty) = false by
        simp [h.1]]
      simp only [Bool.false_eq_true, if_false]
      rw [ih rest h.2]

/-- C7: rendering replaces every occurrence of the literal `\x7b\x7bname\x7d\x7d`
in the body with the recipient's name and changes nothing else (the result is
exactly the between-occurrence pieces of the body joined by the name, and a
body with no occurrence is returned verbatim); the name defaults to the empty
string when absent, and the two concrete spec examples evaluate as stated. -/
theorem renderBody_spec :
    (renderBody "Hi \x7b\x7bname\x7d\x7d!" "" = "Hi !") ∧
    (renderBody "Hi \x7b\x7bname\x7d\x7d!" "Ana" = "Hi Ana!") ∧
    (∀ body name : String, renderBody body name
        = ⟨joinPieces name.data (splitPat placeholder body.data)⟩) ∧
    (∀ body name : String, containsSeq placeholder body.data = false →
        renderBody body name = body) ∧
    (∀ (body : String) (r : Recipient), r.name = none →
        renderBody body (r.name.getD "") = renderBody body "") := by
  refine ⟨by decide, by decide, ?_, ?_, ?_⟩
  · intro body name
    show (⟨replaceList placeholder name.data body.data⟩ : String) = _
    rw [replaceList, replaceFuel_eq_joinPieces, splitPat]
  · intro body name h
    show (⟨replaceList placeholder name.data body.data⟩ : String) = body
    rw [replaceList, replaceFuel_no_occurrence _ _ _ _ h]
  · intro body r h
    rw [h]
    rfl

/-- Witness for C7: a body with no placeholder is returned verbatim. -/
theorem renderBody_spec_witness : renderBody "ab" "z" = "ab" :=
  renderBody_spec.2.2.2.1 "ab" "z" (by decide)

/-! ## C8: the test-send variant -/

/-- C8 counterexample: the test send substitutes the fixed name `"Prueba"`,
not `"Test"` — on the body `"Hola \x7b\x7bname\x7d\x7d"` the rendered body is
`"Hola Prueba"`, which differs from rendering with `"Test"`. -/
theorem testSend_name_not_Test :
    (testSend trSim 1 "s" "Hola \x7b\x7bname\x7d\x7d" "t@x.co").1 = "Hola Prueba" ∧
    (testSend trSim 1 "s" "Hola \x7b\x7bname\x7d\x7d" "t@x.co").1
      ≠ renderBody "Hola \x7b\x7bname\x7d\x7d" "Test" :=
  ⟨by decide, by decide⟩

/-- C8 (amended): the test-send variant renders the campaign body with the
fixed placeholder name `"Prueba"` substituted for `\x7b\x7bname\x7d\x7d`,
dispatches to the single supplied test email, and logs one record whose
`contact_id` is null, whose email is the test email, and whose
`campaign_id` is the campaign's id. -/
theorem testSend_spec (tr : String → String → String → Bool × String)
    (cid : Nat) (subject body email : String) :
    ((testSend tr cid subject body email).1 = renderBody body "Prueba") ∧
    ((testSend tr cid subject body email).2.contact_id = none) ∧
    ((testSend tr cid subject body email).2.email = email) ∧
    ((testSend tr cid subject body email).2.campaign_id = some cid) :=
  ⟨rfl, rfl, rfl, rfl⟩

/-! ## C9: statuses and error texts of logged records -/

theorem smtpTransport_result (cfg : SmtpConfig)
    (net : String → String → String → Except String Unit)
    (toAddr subject body : String) :
    (smtpConfigured cfg = false ∧
      smtpTransport cfg net toAddr subject body = (true, "SIMULATED")) ∨
    (smtpConfigured cfg = true ∧
      (smtpTransport cfg net toAddr subject body = (true, "") ∨
       ∃ e, smtpTransport cfg net toAddr subject body = (false, e))) := by
  unfold smtpTransport send_email_smtp smtpConfigured
  by_cases h : (pyTruthy cfg.host && pyTruthy cfg.user && pyTruthy cfg.password &&
      pyTruthy cfg.fromEmail) = true
  · right
    refine ⟨h, ?_⟩
    simp only [h, if_true]
    cases hn : net toAddr subject body with
    | ok u => left; rfl
    | error e => right; exact ⟨e, rfl⟩
  · left
    rw [Bool.not_eq_true] at h
    refine ⟨h, ?_⟩
    simp only [h, Bool.false_eq_true, if_false]

theorem record_status_error (cfg : SmtpConfig)
    (net : String → String → String → Except String Unit)
    (toAddr subject rendered : String) (st er : String)
    (hst : st = if (smtpTransport cfg net toAddr subject rendered).1
        then "SENT" else "ERROR")
    (her : er = (smtpTransport cfg net toAddr subject rendered).2) :
    (st = "SENT" ∨ st = "ERROR") ∧
    (st = "SENT" → er = "" ∨ er = "SIMULATED") ∧
    (st = "SENT" → smtpConfigured cfg = true → er = "") ∧
    (smtpConfigured cfg = false → st = "SENT" ∧ er = "SIMULATED") := by
  rcases smtpTransport_result cfg net toAddr subject rendered with
    ⟨hc, heq⟩ | ⟨hc, heq | ⟨e, heq⟩⟩
  · rw [heq] at hst her
    simp at hst her
    subst hst
    subst her
    exact ⟨Or.inl rfl, fun _ => Or.inr rfl,
      fun _ hcfg => absurd (hc ▸ hcfg) (by decide), fun _ => ⟨rfl, rfl⟩⟩
  · rw [heq] at hst her
    simp at hst her
    subst hst
    subst her
    exact ⟨Or.inl rfl, fun _ => Or.inl rfl, fun _ _ => rfl,
      fun hf => absurd (hc ▸ hf) (by decide)⟩
  · rw [heq] at hst her
    simp at hst her
    subst hst
    subst her
    exact ⟨Or.inr rfl, fun hf => absurd hf (by decide), fun hf => absurd hf (by decide),
      fun hf => absurd (hc ▸ hf) (by decide)⟩

/-- C9 counterexample: with the transport unconfigured (simulated mode) the
dispatcher logs a record whose status is SENT but whose error field is
`"SIMULATED"`, not the empty string. -/
theorem sent_record_error_simulated :
    (dispatch (smtpTransport cfgUnset netOk) 1 "s" "b" [rcptA]).2
      = [{ campaign_id := some 1, contact_id := some 1, email := "a@x.co",
           status := "SENT", error := "SIMULATED" }] ∧
    ({ campaign_id := some 1, contact_id := some 1, email := "a@x.co",
       status := "SENT", error := "SIMULATED" : SendRecord }).error ≠ "" :=
  ⟨by decide, by decide⟩

/-- C9 (amended): every record appended by the dispatcher or the test-send
variant over the SMTP transport has status SENT or ERROR; a SENT record's
error field is the transport's success message — the empty string whenever
the credentials are fully configured (a real delivered send), and
`"SIMULATED"` in the unconfigured simulated mode, where every record is a
SENT record carrying exactly the error text `"SIMULATED"`. -/
theorem send_records_status (cfg : SmtpConfig)
    (net : String → String → String → Except String Unit)
    (cid : Nat) (subject body : String) (rs : List Recipient) :
    (∀ sr ∈ (dispatch (smtpTransport cfg net) cid subject body rs).2,
        (sr.status = "SENT" ∨ sr.status = "ERROR") ∧
        (sr.status = "SENT" → sr.error = "" ∨ sr.error = "SIMULATED") ∧
        (sr.status = "SENT" → smtpConfigured cfg = true → sr.error = "") ∧
        (smtpConfigured cfg = false →
          sr.status = "SENT" ∧ sr.error = "SIMULATED")) ∧
    (∀ email : String,
        ((testSend (smtpTransport cfg net) cid subject body email).2.status = "SENT" ∨
         (testSend (smtpTransport cfg net) cid subject body email).2.status = "ERROR") ∧
        ((testSend (smtpTransport cfg net) cid subject body email).2.status = "SENT" →
          (testSend (smtpTransport cfg net) cid subject body email).2.error = "" ∨
          (testSend (smtpTransport cfg net) cid subject body email).2.error = "SIMULATED") ∧
        ((testSend (smtpTransport cfg net) cid subject body email).2.status = "SENT" →
          smtpConfigured cfg = true →
          (testSend (smtpTransport cfg net) cid subject body email).2.error = "") ∧
        (smtpConfigured cfg = false →
          (testSend (smtpTransport cfg net) cid subject body email).2.status = "SENT" ∧
          (testSend (smtpTransport cfg net) cid subject body email).2.error
            = "SIMULATED")) := by
  constructor
  · intro sr hsr
    rw [dispatch_eq] at hsr
    obtain ⟨r, _, hr⟩ := List.mem_map.mp hsr
    rw [← hr]
    exact record_status_error cfg net r.email subject
      (renderBody body (r.name.getD "")) _ _ rfl rfl
  · intro email
    exact record_status_error cfg net email subject
      (renderBody body "Prueba") _ _ rfl rfl

/-- Witness for C9 at the simulated-mode dispatch of one recipient. -/
theorem send_records_status_witness :
    ({ campaign_id := some 1, contact_id := some 1, email := "a@x.co",
       status := "SENT", error := "SIMULATED" : SendRecord }).status = "SENT" ∨
    ({ campaign_id := some 1, contact_id := some 1, email := "a@x.co",
       status := "SENT", error := "SIMULATED" : SendRecord }).status = "ERROR" :=
  ((send_records_status cfgUnset netOk 1 "s" "b" [rcptA]).1
    { campaign_id := some 1, contact_id := some 1, email := "a@x.co",
      status := "SENT", error := "SIMULATED" } (by decide)).1

/-! ## C6: the CSV import's required email column -/

theorem lookupColLast_eq_none {header : List String} {key : String}
    (h : ∀ x ∈ header, pyLower x ≠ key) :
    lookupColLast header key = none := by
  unfold lookupColLast
  have hf : header.reverse.findIdx? (fun c => pyLower c == key) = none := by
    rw [List.findIdx?_eq_none_iff]
    intro x hx
    simpa using h x (List.mem_reverse.mp hx)
  rw [hf]

/-- C6: a CSV whose header has no `email` column (matched case-insensitively)
is a hard error — `csvCandidates` aborts with the UI error and the
end-to-end import leaves the Contact Store unchanged with no accepted rows
— while a
missing `name` or `tags` column does not abort: the import proceeds and that
field is the empty string in every produced candidate. -/
theorem csv_missing_email_column :
    (∀ (header : List String) (rows : List (List String)) (clock : List String)
        (s : ContactStore), (∀ x ∈ header, pyLower x ≠ "email") →
        csvImportIntoStore header rows clock s = (s, none) ∧
        csvCandidates header rows
          = Except.error "El CSV debe incluir una columna 'email'.") ∧
    (∀ (header : List String) (rows : List (List String)) (ei : Nat),
        lookupColLast header "email" = some ei →
        lookupColLast header "name" = none →
        ∃ out, csvCandidates header rows = Except.ok out ∧
          ∀ c ∈ out.1, c.name = "") ∧
    (∀ (header : List String) (rows : List (List String)) (ei : Nat),
        lookupColLast header "email" = some ei →
        lookupColLast header "tags" = none →
        ∃ out, csvCandidates header rows = Except.ok out ∧
          ∀ c ∈ out.1, c.tags = "") := by
  refine ⟨?_, ?_, ?_⟩
  · intro header rows clock s hno
    have hcand : csvCandidates header rows
        = Except.error "El CSV debe incluir una columna 'email'." := by
      unfold csvCandidates
      rw [lookupColLast_eq_none hno]
    refine ⟨?_, hcand⟩
    unfold csvImportIntoStore
    rw [hcand]
  · intro header rows ei hei hname
    unfold csvCandidates
    rw [hei, hname]
    refine ⟨_, rfl, ?_⟩
    intro c hc
    have hc1 := (List.mem_filter.mp hc).1
    obtain ⟨row, _, hrow⟩ := List.mem_map.mp hc1
    rw [← hrow]
  · intro header rows ei hei htags
    unfold csvCandidates
    rw [hei, htags]
    refine ⟨_, rfl, ?_⟩
    intro c hc
    have hc1 := (List.mem_filter.mp hc).1
    obtain ⟨row, _, hrow⟩ := List.mem_map.mp hc1
    rw [← hrow]

/-- Witness for C6: a `name,tags`-only CSV aborts and the store is
untouched. -/
theorem csv_missing_email_column_witness :
    csvImportIntoStore ["name", "tags"] [["A", "t"]] [] sampleStore
      = (sampleStore, none) :=
  (csv_missing_email_column.1 ["name", "tags"] [["A", "t"]] [] sampleStore
    (by decide)).1

/-! ## C5: free-text import deduplication -/

theorem dedupGo_sublist (seen : List String) (cs : List Candidate) :
    List.Sublist (dedupGo seen cs) cs := by
  induction cs generalizing seen with
  | nil => exact List.Sublist.refl _
  | cons a rest ih =>
    unfold dedupGo
    cases hb : seen.contains a.email with
    | true =>
      rw [if_pos rfl]
      exact (ih seen).trans (List.sublist_cons_self a rest)
    | false =>
      rw [if_neg (by decide)]
      exact List.Sublist.cons₂ a (ih (a.email :: seen))

theorem dedupGo_find (seen : List String) (cs : List Candidate) :
    ∀ c ∈ dedupGo seen cs, seen.contains c.email = false ∧
      cs.find? (fun x => x.email == c.email) = some c := by
  induction cs generalizing seen with
  | nil => intro c hc; cases hc
  | cons a rest ih =>
    intro c hc
    unfold dedupGo at hc
    cases hb : seen.contains a.email with
    | true =>
      simp only [hb, eq_self_iff_true, if_true] at hc
      obtain ⟨h1, h2⟩ := ih seen c hc
      have hpa : (a.email == c.email) = false := by
        rw [beq_eq_false_iff_ne]
        intro heq
        rw [heq] at hb
        rw [hb] at h1
        cases h1
      refine ⟨h1, ?_⟩
      simp only [List.find?_cons, hpa]
      exact h2
    | false =>
      simp only [hb, Bool.false_eq_true, if_false] at hc
      rcases List.mem_cons.mp hc with heq | hc2
      · subst heq
        refine ⟨hb, ?_⟩
        simp only [List.find?_cons, beq_self_eq_true]
      · obtain ⟨h1, h2⟩ := ih (a.email :: seen) c hc2
        rw [List.contains_cons, Bool.or_eq_false_iff] at h1
        have hpa : (a.email == c.email) = false := by
          rw [beq_eq_false_iff_ne]
          intro hh
          exact (beq_eq_false_iff_ne.mp h1.1) hh.symm
        refine ⟨h1.2, ?_⟩
        simp only [List.find?_cons, hpa]
        exact h2

theorem dedupGo_emails_nodup (seen : List String) (cs : List Candidate) :
    ((dedupGo seen cs).map Candidate.email).Nodup ∧
      ∀ e ∈ (dedupGo seen cs).map Candidate.email, seen.contains e = false := by
  induction cs generalizing seen with
  | nil => exact ⟨List.nodup_nil, by intro e he; cases he⟩
  | cons a rest ih =>
    unfold dedupGo
    cases hb : seen.contains a.email with
    | true =>
      rw [if_pos rfl]
      exact ih seen
    | false =>
      rw [if_neg (by decide)]
      rw [List.map_cons]
      obtain ⟨ihn, ihs⟩ := ih (a.email :: seen)
      constructor
      · rw [List.nodup_cons]
        refine ⟨?_, ihn⟩
        intro hmem
        have hcon := ihs a.email hmem
        rw [List.contains_cons] at hcon
        simp at hcon
      · intro e he
        rcases List.mem_cons.mp he with heq | he2
        · rw [heq]
          exact hb
        · have hcon := ihs e he2
          rw [List.contains_cons, Bool.or_eq_false_iff] at hcon
          exact hcon.2

theorem dedupGo_covers (seen : List String) (cs : List Candidate) :
    ∀ c ∈ cs, seen.contains c.email = true ∨
      ∃ d ∈ dedupGo seen cs, d.email = c.email := by
  induction cs generalizing seen with
  | nil => intro c hc; cases hc
  | cons a rest ih =>
    intro c hc
    unfold dedupGo
    cases hb : seen.contains a.email with
    | true =>
      rw [if_pos rfl]
      rcases List.mem_cons.mp hc with heq | hc2
      · rw [heq]
        exact Or.inl hb
      · exact ih seen c hc2
    | false =>
      rw [if_neg (by decide)]
      rcases List.mem_cons.mp hc with heq | hc2
      · refine Or.inr ⟨a, List.mem_cons_self a _, ?_⟩
        rw [heq]
      · rcases ih (a.email :: seen) c hc2 with hin | ⟨d, hd, hde⟩
        · rw [List.contains_cons] at hin
          rcases Bool.or_eq_true_iff.mp hin with heq2 | hseen
          · refine Or.inr ⟨a, List.mem_cons_self a _, ?_⟩
            have := beq_iff_eq.mp heq2
            rw [this]
          · exact Or.inl hseen
        · exact Or.inr ⟨d, List.mem_cons_of_mem a hd, hde⟩

/-- C5: on the free-text path the normalizer deduplicates the validated
candidates by email keeping the first occurrence in file order — the output
is a subsequence of the validated candidate list with pairwise-distinct
emails, every output candidate is the *first* validated candidate bearing its
email, every validated email is represented — and the spec's concrete example
`["a@x.com;A;t1", "A@X.COM"]` yields exactly the single candidate
`a@x.com / A / t1` with zero skipped rows. -/
theorem freeText_dedup_spec :
    (freeTextCandidates ["a@x.com;A;t1", "A@X.COM"]
        = ([{ email := "a@x.com", name := "A", tags := "t1" }], 0)) ∧
    (∀ lines : List String,
        List.Sublist (freeTextCandidates lines).1
          (normalizeValidate (preCandidates lines)).1 ∧
        ((freeTextCandidates lines).1.map Candidate.email).Nodup ∧
        (∀ c ∈ (freeTextCandidates lines).1,
          (normalizeValidate (preCandidates lines)).1.find?
            (fun x => x.email == c.email) = some c) ∧
        (∀ c ∈ (normalizeValidate (preCandidates lines)).1,
          ∃ d ∈ (freeTextCandidates lines).1, d.email = c.email)) := by
  refine ⟨by decide, ?_⟩
  intro lines
  have h0 : (freeTextCandidates lines).1
      = dedupGo [] (normalizeValidate (preCandidates lines)).1 := rfl
  rw [h0]
  refine ⟨dedupGo_sublist _ _, (dedupGo_emails_nodup [] _).1, ?_, ?_⟩
  · intro c hc
    exact (dedupGo_find [] _ c hc).2
  · intro c hc
    rcases dedupGo_covers [] _ c hc with h | h
    · cases h
    · exact h

/-- The surviving candidate of the spec's dedup example. -/
def dedupExampleCandidate : Candidate :=
  { email := "a@x.com", name := "A", tags := "t1" }

/-- Witness for C5: the surviving candidate of the spec example is the first
occurrence of its email among the validated candidates. -/
theorem freeText_dedup_spec_witness :
    (normalizeValidate (preCandidates ["a@x.com;A;t1", "A@X.COM"])).1.find?
      (fun x => x.email == dedupExampleCandidate.email)
      = some dedupExampleCandidate :=
  (freeText_dedup_spec.2 ["a@x.com;A;t1", "A@X.COM"]).2.2.1
    dedupExampleCandidate (by decide)

/-! ## C1: the email validator -/

theorem and_true_elim {a b : Bool} (h : (a && b) = true) :
    a = true ∧ b = true := by
  rw [Bool.and_eq_true] at h
  exact h

theorem splitMatch_iff (p q : List Char → Bool) (t : List Char) :
    splitMatch p q t = true ↔
      ∃ i, i ≤ t.length ∧ p (t.take i) = true ∧ q (t.drop i) = true := by
  unfold splitMatch
  rw [List.any_eq_true]
  constructor
  · rintro ⟨i, hmem, hpq⟩
    rw [Bool.and_eq_true] at hpq
    exact ⟨i, by have := List.mem_range.mp hmem; omega, hpq.1, hpq.2⟩
  · rintro ⟨i, hi, hp, hq⟩
    refine ⟨i, List.mem_range.mpr (by omega), ?_⟩
    rw [Bool.and_eq_true]
    exact ⟨hp, hq⟩

theorem emailCore_mem_at {t : List Char} (h : emailCore t = true) : '@' ∈ t := by
  obtain ⟨i, hi, hloc, hat⟩ := (splitMatch_iff _ _ t).mp h
  cases hd : t.drop i with
  | nil =>
    rw [hd] at hat
    simp [atDomain] at hat
  | cons ch r =>
    rw [hd] at hat
    simp only [atDomain] at hat
    obtain ⟨hch, _⟩ := and_true_elim hat
    have hcheq : ch = '@' := eq_of_beq hch
    rw [← List.take_append_drop i t]
    apply List.mem_append.mpr
    right
    rw [hd, hcheq]
    exact List.mem_cons_self _ _

theorem emailCore_chars {t : List Char} (h : emailCore t = true) :
    ∀ c ∈ t, (isLocalChar c || c == '@' || isDomainChar c || c.isAlpha)
      = true := by
  obtain ⟨i, hi, hloc, hat⟩ := (splitMatch_iff _ _ t).mp h
  intro c hc
  rw [← List.take_append_drop i t] at hc
  rcases List.mem_append.mp hc with hcl | hcr
  · have hall := (and_true_elim hloc).2
    have hlc := List.all_eq_true.mp hall c hcl
    simp [hlc]
  · cases hd : t.drop i with
    | nil =>
      rw [hd] at hcr
      cases hcr
    | cons ch r =>
      rw [hd] at hcr hat
      simp only [atDomain] at hat
      obtain ⟨hch, hdom⟩ := and_true_elim hat
      rcases List.mem_cons.mp hcr with hceq | hcr2
      · rw [hceq]
        simp [hch]
      · obtain ⟨j, hj, hdj, hdot⟩ := (splitMatch_iff _ _ r).mp hdom
        rw [← List.take_append_drop j r] at hcr2
        rcases List.mem_append.mp hcr2 with hc1 | hc2
        · have hall := (and_true_elim hdj).2
          have hdc := List.all_eq_true.mp hall c hc1
          simp [hdc]
        · cases he : r.drop j with
          | nil =>
            rw [he] at hc2
            cases hc2
          | cons c2 lab =>
            rw [he] at hc2 hdot
            simp only [dotTld] at hdot
            obtain ⟨hc2d, htld⟩ := and_true_elim hdot
            rcases List.mem_cons.mp hc2 with hce | hclab
            · have hdot2 : c2 = '.' := eq_of_beq hc2d
              rw [hce, hdot2]
              decide
            · have hall := (and_true_elim htld).2
              have hac := List.all_eq_true.mp hall c hclab
              simp [hac]

theorem is_valid_email_mem_at {s : String} (h : is_valid_email s = true) :
    '@' ∈ s.data := by
  unfold is_valid_email at h
  rcases Bool.or_eq_true_iff.mp h with hc | hm
  · exact emailCore_mem_at hc
  · cases hlast : s.data.getLast? with
    | none =>
      rw [hlast] at hm
      simp at hm
    | some ch =>
      rw [hlast] at hm
      obtain ⟨h1, h2⟩ := and_true_elim hm
      exact (List.dropLast_sublist s.data).subset (emailCore_mem_at h2)

theorem is_valid_email_chars {s : String} (h : is_valid_email s = true) :
    ∀ c ∈ s.data,
      (isLocalChar c || c == '@' || isDomainChar c || c.isAlpha || c == '\n')
        = true := by
  intro c hc
  unfold is_valid_email at h
  rcases Bool.or_eq_true_iff.mp h with hcore | hm
  · have h4 := emailCore_chars hcore c hc
    simp only [Bool.or_eq_true_iff] at h4 ⊢
    tauto
  · cases hlast : s.data.getLast? with
    | none =>
      rw [hlast] at hm
      simp at hm
    | some ch =>
      rw [hlast] at hm
      obtain ⟨h1, h2⟩ := and_true_elim hm
      have hch : ch = '\n' := of_decide_eq_true h1
      subst hch
      obtain ⟨ys, hys⟩ := List.getLast?_eq_some_iff.mp hlast
      rw [hys, List.dropLast_concat] at h2
      rw [hys] at hc
      rcases List.mem_append.mp hc with hcy | hcn
      · have h4 := emailCore_chars h2 c hcy
        simp only [Bool.or_eq_true_iff] at h4 ⊢
        tauto
      · rcases List.mem_cons.mp hcn with hce | hfalse
        · rw [hce]
          decide
        · cases hfalse

/-- C1 counterexample: the Python `$` anchor also matches just before a
trailing newline, so `is_valid_email` accepts `"a@b.co\n"`, which does not
match the spec's whole-string `local@domain.tld` shape — the claimed
biconditional fails there. -/
theorem email_validator_claim_false :
    ¬(is_valid_email "a@b.co\n" = true ↔ specEmailShape "a@b.co\n" = true) := by
  decide

/-- C1 (amended): `is_valid_email s` is true iff `s` matches the
`local@domain.tld` shape, or `s` is a shape-matching string followed by one
trailing newline (an artifact of the regex `$` anchor); it still rejects the
empty string, every string without an `@`, and every string containing a
space. -/
theorem is_valid_email_spec :
    (∀ s : String, is_valid_email s = true ↔
        (specEmailShape s = true ∨
         ∃ t : String, s = t ++ "\n" ∧ specEmailShape t = true)) ∧
    (is_valid_email "" = false) ∧
    (∀ s : String, ¬('@' ∈ s.data) → is_valid_email s = false) ∧
    (∀ s : String, ' ' ∈ s.data → is_valid_email s = false) := by
  refine ⟨?_, by decide, ?_, ?_⟩
  · intro s
    constructor
    · intro h
      unfold is_valid_email at h
      rcases Bool.or_eq_true_iff.mp h with hc | hm
      · exact Or.inl hc
      · cases hlast : s.data.getLast? with
        | none =>
          rw [hlast] at hm
          simp at hm
        | some ch =>
          rw [hlast] at hm
          obtain ⟨h1, h2⟩ := and_true_elim hm
          have hch : ch = '\n' := of_decide_eq_true h1
          subst hch
          obtain ⟨ys, hys⟩ := List.getLast?_eq_some_iff.mp hlast
          refine Or.inr ⟨⟨ys⟩, ?_, ?_⟩
          · cases s with
            | mk data =>
              exact congrArg String.mk hys
          · rw [hys, List.dropLast_concat] at h2
            exact h2
    · intro h
      rcases h with h | ⟨t, hst, ht⟩
      · unfold is_valid_email
        exact Bool.or_eq_true_iff.mpr (Or.inl h)
      · unfold is_valid_email
        have hdata : s.data = t.data ++ ['\n'] := by
          rw [hst]
          rfl
        rw [hdata, List.getLast?_concat, List.dropLast_concat]
        simp
        exact Or.inr ht
  · intro s hat
    cases hv : is_valid_email s with
    | false => rfl
    | true => exact absurd (is_valid_email_mem_at hv) hat
  · intro s hsp
    cases hv : is_valid_email s with
    | false => rfl
    | true =>
      have hch := is_valid_email_chars hv ' ' hsp
      exact absurd hch (by decide)

/-- Witness for C1 at a concrete rejected input: `"abc"` has no `@`. -/
theorem is_valid_email_spec_witness : is_valid_email "abc" = false :=
  is_valid_email_spec.2.2.1 "abc" (by decide)

end MiniBrevo